import Mathlib

/-!
Verification of the upwind flux evaluator (`flow_upwind_evaluator.cpp`) of the
Macrocirculation1D0D repository.

Doubles are modelled as elements of a linear ordered field: `ℚ` where the code
is plain arithmetic and comparisons (so the model stays executable), and `ℝ`
where square roots and fractional powers occur.  The `NaN` time stamp of the
evaluator is modelled by `Option`, with `none` playing the role of `NaN`.
-/

namespace Macrocirculation

/-- One damped Newton update `A_out = A_out + omega * dx` with
`dx = -f_value / df_value`, from the loop body of
`FlowUpwindEvaluator::calculate_inout_fluxes`. -/
def newtonBody {α : Type*} [LinearOrderedField α] (f df : α → α) (ω A : α) : α :=
  A + ω * (-(f A) / df A)

/-- The loop guard `error > TOL`, where `none` models the initial
`error = INFINITY`. -/
def errAbove {α : Type*} [LinearOrderedField α] (tol : α) : Option α → Bool
  | none => true
  | some e => decide (tol < e)

/-- The damped Newton `while` loop of the Windkessel branch:
`while (num_iter < 250 && error > TOL) { ... }`.  The argument `fuel` stands
for `250 - num_iter`, so that the loop terminates structurally; `iter` is
`num_iter` itself.  After each update the error becomes `|f A_out|`.  The
`Bool` component of the result records whether the warning
`"warning: Newton did not converge"` has been written to `std::cerr`
(the code prints it inside the loop body when `num_iter == 250`). -/
def newtonAux {α : Type*} [LinearOrderedField α] (f df : α → α) (ω tol : α) :
    ℕ → ℕ → α → Option α → Bool → α × ℕ × Bool
  | 0, iter, A, _, w => (A, iter, w)
  | fuel + 1, iter, A, err, w =>
    if errAbove tol err then
      newtonAux f df ω tol fuel (iter + 1) (newtonBody f df ω A)
        (some |f (newtonBody f df ω A)|) (w || (iter + 1 == 250))
    else (A, iter, w)

/-- `const double TOL = 1.0e-10;`. -/
def newtonTol {α : Type*} [LinearOrderedField α] : α := 1 / 10 ^ 10

/-- The complete Newton solve of the Windkessel branch, with the relaxation
factor `ω` kept as a parameter so that the factor claimed by the spec and the
factor used by the code can be compared.  It starts from the measured boundary
area `A`, with `error = INFINITY` and `num_iter = 0`. -/
def newtonLoop {α : Type*} [LinearOrderedField α] (f df : α → α) (ω A : α) : α × ℕ × Bool :=
  newtonAux f df ω newtonTol 250 0 A none false

/-- `const double omega = 0.5 / 2.;` exactly as in the source. -/
def newtonOmega {α : Type*} [LinearOrderedField α] : α := (1 / 2) / 2

/-- The Newton solve exactly as `calculate_inout_fluxes` performs it
(relaxation factor `0.5 / 2`). -/
def newtonSolve {α : Type*} [LinearOrderedField α] (f df : α → α) (A : α) : α × ℕ × Bool :=
  newtonLoop f df newtonOmega A

/-- Modelled from the spec: the same damped Newton iteration, but with the
relaxation factor `0.5` that the specification claims
("damped Newton iteration (relaxation factor 0.5, tolerance 1e−10, hard cap
250 iterations)"). -/
def newtonSolveSpecHalf {α : Type*} [LinearOrderedField α] (f df : α → α) (A : α) : α × ℕ × Bool :=
  newtonLoop f df (1 / 2) A

/-- Physical data of a vessel, in the order in which
`calculate_nfurcation_fluxes` packs them into `VesselParameters`
(`p_e.emplace_back(data_e.G0, data_e.A0, data_e.rho)`). -/
structure VesselParams where
  G0 : ℝ
  A0 : ℝ
  rho : ℝ

/-- Modelled from the spec: `calculate_c0` of `vessel_formulas.hpp`, which is
not among the sources; the spec fixes `c0 = √(G0/(2ρ))` (§4.3, Windkessel
outflow). -/
noncomputable def calculate_c0 (G0 rho : ℝ) : ℝ := Real.sqrt (G0 / (2 * rho))

/-- Modelled from the spec: `calculate_W1_value` of the missing
`vessel_formulas.hpp` — the backward characteristic invariant
`W1(Q,A) = Q/A − 4 c0 (A/A0)^(1/4)`.  The shape is fixed by the spec's
Windkessel residual `W − (p(A_out) − p_c)/(A_out·R1) − 4·c0·(A_out/A0)^(1/4)`
together with `Q_out = (p(A_out) − p_c)/R1`, in which the middle term is the
outlet velocity `Q_out/A_out`, so that the residual equates the invariant of
the outlet state with `W`. -/
noncomputable def calculate_W1_value (Q A G0 rho A0 : ℝ) : ℝ :=
  Q / A - 4 * calculate_c0 G0 rho * (A / A0) ^ ((1 : ℝ) / 4)

/-- Modelled from the spec: `calculate_W2_value` of the missing
`vessel_formulas.hpp` — the forward characteristic invariant
`W2(Q,A) = Q/A + 4 c0 (A/A0)^(1/4)`; see `calculate_W1_value`. -/
noncomputable def calculate_W2_value (Q A G0 rho A0 : ℝ) : ℝ :=
  Q / A + 4 * calculate_c0 G0 rho * (A / A0) ^ ((1 : ℝ) / 4)

/-- Modelled from the spec: `calculate_static_p` of the missing
`vessel_formulas.hpp` — the pressure-area law `p(A) = G0 (√(A/A0) − 1)`
(§3, Physical Data). -/
noncomputable def calculate_static_p (A G0 A0 : ℝ) : ℝ := G0 * (Real.sqrt (A / A0) - 1)

/-- Modelled from the spec: `solve_W12` of the missing `vessel_formulas.hpp` —
"both invariants are combined to recover (Q,A) at the boundary": inverting
`W1 = Q/A − 4c0(A/A0)^(1/4)` and `W2 = Q/A + 4c0(A/A0)^(1/4)` gives
`A = A0 ((W2−W1)/(8c0))^4` and `Q = A (W1+W2)/2`.  The result is the pair
`(Q_up, A_up)`. -/
noncomputable def solve_W12 (W1 W2 G0 rho A0 : ℝ) : ℝ × ℝ :=
  (A0 * ((W2 - W1) / (8 * calculate_c0 G0 rho)) ^ (4 : ℕ) * ((W1 + W2) / 2),
   A0 * ((W2 - W1) / (8 * calculate_c0 G0 rho)) ^ (4 : ℕ))

/-- `const double c0 = std::pow(param.G0 / (2.0 * param.rho), 0.5);`
(Windkessel branch of `calculate_inout_fluxes`). -/
noncomputable def windkesselC0 (p : VesselParams) : ℝ := (p.G0 / (2 * p.rho)) ^ ((1 : ℝ) / 2)

/-- `const double R1 = param.rho * c0 / param.A0;`. -/
noncomputable def windkesselR1 (p : VesselParams) : ℝ := p.rho * windkesselC0 p / p.A0

/-- The Newton residual lambda `f` of the Windkessel branch:
`auto p = param.G0 * (std::sqrt(A_out / param.A0) - 1);`
`return W - (p - p_c) / (A_out * R1) - 4 * c0 * std::pow(A_out / param.A0, 0.25);`. -/
noncomputable def windkesselF (p : VesselParams) (p_c W A_out : ℝ) : ℝ :=
  W - (p.G0 * (Real.sqrt (A_out / p.A0) - 1) - p_c) / (A_out * windkesselR1 p)
    - 4 * windkesselC0 p * (A_out / p.A0) ^ ((1 : ℝ) / 4)

/-- The derivative lambda `df` of the Windkessel branch. -/
noncomputable def windkesselDf (p : VesselParams) (p_c A_out : ℝ) : ℝ :=
  -(p.G0 * (1 / 2) / Real.sqrt (A_out * p.A0)) / (A_out * windkesselR1 p)
    + (p.G0 * (Real.sqrt (A_out / p.A0) - 1) - p_c) / (A_out * A_out * windkesselR1 p)
    - windkesselC0 p * A_out ^ (-(3 : ℝ) / 4) / p.A0 ^ ((1 : ℝ) / 4)

/-- `const auto W = is_pointing_to ? calculate_W2_value(Q, A, ...) :
calculate_W1_value(Q, A, ...);`. -/
noncomputable def windkesselW (p : VesselParams) (pointing : Bool) (Q A : ℝ) : ℝ :=
  if pointing then calculate_W2_value Q A p.G0 p.rho p.A0
  else calculate_W1_value Q A p.G0 p.rho p.A0

/-- The outlet cross-section produced by the damped Newton loop, started at the
measured boundary area `A` (`double A_out = A;`). -/
noncomputable def windkesselAOut (p : VesselParams) (p_c W A : ℝ) : ℝ :=
  (newtonSolve (windkesselF p p_c W) (windkesselDf p p_c) A).1

/-- `const double Q_out = sgn * (calculate_static_p(A_out, param.G0, param.A0) - p_c) / R1;`
with `sgn = is_pointing_to ? +1 : -1`. -/
noncomputable def windkesselQOut (p : VesselParams) (pointing : Bool) (A_out p_c : ℝ) : ℝ :=
  (if pointing then (1 : ℝ) else -1) * (calculate_static_p A_out p.G0 p.A0 - p_c) / windkesselR1 p

/-- The complete Windkessel-outflow branch: the flux pair `(Q_out, A_out)`
cached for the incident edge. -/
noncomputable def windkesselBranch (p : VesselParams) (pointing : Bool) (Q A p_c : ℝ) : ℝ × ℝ :=
  (windkesselQOut p pointing (windkesselAOut p p_c (windkesselW p pointing Q A) A) p_c,
   windkesselAOut p p_c (windkesselW p pointing Q A) A)

/-- The per-edge upwinded flux buffers `d_Q_macro_edge_flux_l/r` and
`d_A_macro_edge_flux_l/r`, indexed by edge id. -/
structure EdgeFluxCache where
  Ql : ℕ → ℝ
  Qr : ℕ → ℝ
  Al : ℕ → ℝ
  Ar : ℕ → ℝ

/-- Writing a leaf flux pair into the cache: the `_r` slots of the edge when
the edge points to the vertex, the `_l` slots otherwise (the common
`if (in) { ..._flux_r[edge] = ...; } else { ..._flux_l[edge] = ...; }`
pattern of `calculate_inout_fluxes`). -/
def writeLeafFlux (pointing : Bool) (eid : ℕ) (QA : ℝ × ℝ) (c : EdgeFluxCache) : EdgeFluxCache :=
  if pointing then
    { c with Qr := Function.update c.Qr eid QA.1, Ar := Function.update c.Ar eid QA.2 }
  else
    { c with Ql := Function.update c.Ql eid QA.1, Al := Function.update c.Al eid QA.2 }

/-- Processing a Windkessel leaf vertex: the capillary pressure is read from
the previous solution at the vertex's single dof
(`const auto p_c = u_prev[vertex_dofs[0]];`) and the branch result is cached
for the incident edge. -/
noncomputable def windkesselLeafUpdate (p : VesselParams) (pointing : Bool) (Q A : ℝ)
    (u_prev : ℕ → ℝ) (vdof eid : ℕ) (c : EdgeFluxCache) : EdgeFluxCache :=
  writeLeafFlux pointing eid (windkesselBranch p pointing Q A (u_prev vdof)) c

/-- The prescribed-inflow branch of `calculate_inout_fluxes`:
`const double Q_star = (in ? -1 : +1) * vertex->get_inflow_value(t);`
`const double A_up = assemble_in_flow(Q, A, in, Q_star, param.G0, param.rho, param.A0);`.
`assemble_in_flow` lives in the missing `vessel_formulas.hpp` and is kept
abstract as the parameter `assemble`. -/
noncomputable def inflowBranch (assemble : ℝ → ℝ → Bool → ℝ → ℝ → ℝ → ℝ → ℝ)
    (p : VesselParams) (pointing : Bool) (infl Q A : ℝ) : ℝ × ℝ :=
  ((if pointing then (-1 : ℝ) else 1) * infl,
   assemble Q A pointing ((if pointing then (-1 : ℝ) else 1) * infl) p.G0 p.rho p.A0)

/-- Processing a prescribed-inflow leaf vertex: the inflow waveform is
evaluated at the current time and the branch result is cached for the
incident edge. -/
noncomputable def inflowLeafUpdate (assemble : ℝ → ℝ → Bool → ℝ → ℝ → ℝ → ℝ → ℝ)
    (p : VesselParams) (pointing : Bool) (w : ℝ → ℝ) (t Q A : ℝ) (eid : ℕ)
    (c : EdgeFluxCache) : EdgeFluxCache :=
  writeLeafFlux pointing eid (inflowBranch assemble p pointing (w t) Q A) c

/-- The free-outflow branch of `calculate_inout_fluxes`: the outgoing
invariant comes from the measured boundary values `(Q, A)`, the incoming one
from the reference state `Q_init = 0`, `A_init = param.A0`, and both are
combined by `solve_W12`. -/
noncomputable def freeOutflowBranch (p : VesselParams) (pointing : Bool) (Q A : ℝ) : ℝ × ℝ :=
  solve_W12
    (if pointing then calculate_W1_value 0 p.A0 p.G0 p.rho p.A0
     else calculate_W1_value Q A p.G0 p.rho p.A0)
    (if pointing then calculate_W2_value Q A p.G0 p.rho p.A0
     else calculate_W2_value 0 p.A0 p.G0 p.rho p.A0)
    p.G0 p.rho p.A0

/-- Processing a free-outflow leaf vertex. -/
noncomputable def freeOutflowLeafUpdate (p : VesselParams) (pointing : Bool) (Q A : ℝ)
    (eid : ℕ) (c : EdgeFluxCache) : EdgeFluxCache :=
  writeLeafFlux pointing eid (freeOutflowBranch p pointing Q A) c

/-- The flow carried by an incident edge into a junction: `Q` if the edge
points to the vertex, `-Q` otherwise. -/
def junctionInflow (pointing : Bool) (Q : ℝ) : ℝ := if pointing then Q else -Q

/-- Modelled from the spec: the characteristic compatibility equation that the
junction solve imposes per vessel — the outgoing Riemann invariant of the
upwinded state equals that of the measured boundary state (`W2` for edges
pointing to the vertex, `W1` for edges pointing away). -/
def charCompat (p : VesselParams) (pointing : Bool) (Qe Ae Qup Aup : ℝ) : Prop :=
  if pointing then
    calculate_W2_value Qup Aup p.G0 p.rho p.A0 = calculate_W2_value Qe Ae p.G0 p.rho p.A0
  else
    calculate_W1_value Qup Aup p.G0 p.rho p.A0 = calculate_W1_value Qe Ae p.G0 p.rho p.A0

/-- Modelled from the spec: the nonlinear system solved by
`solve_at_nfurcation` (missing `vessel_formulas.hpp`) at a three-vessel
junction — one characteristic compatibility equation per vessel, pressure
continuity, and conservation of mass (§4.3 step 3: "one incoming/outgoing
Riemann invariant per edge plus mass and momentum/pressure-continuity
constraints at the junction"). -/
def NfurcationSolution (p1 p2 p3 : VesselParams) (in1 in2 in3 : Bool)
    (Qe1 Ae1 Qe2 Ae2 Qe3 Ae3 Qup1 Aup1 Qup2 Aup2 Qup3 Aup3 : ℝ) : Prop :=
  charCompat p1 in1 Qe1 Ae1 Qup1 Aup1 ∧
  charCompat p2 in2 Qe2 Ae2 Qup2 Aup2 ∧
  charCompat p3 in3 Qe3 Ae3 Qup3 Aup3 ∧
  calculate_static_p Aup1 p1.G0 p1.A0 = calculate_static_p Aup2 p2.G0 p2.A0 ∧
  calculate_static_p Aup2 p2.G0 p2.A0 = calculate_static_p Aup3 p3.G0 p3.A0 ∧
  junctionInflow in1 Qup1 + junctionInflow in2 Qup2 + junctionInflow in3 Qup3 = 0

/-- The interior two-characteristic upwinding of `get_fluxes_on_macro_edge`:
`W2_l` from the right trace `(Q_l, A_l)` of the left micro-edge, `W1_r` from
the left trace `(Q_r, A_r)` of the right micro-edge, then
`solve_W12(Q_up, A_up, W1_r, W2_l, ...)`. -/
noncomputable def interiorUpwind (p : VesselParams) (Ql Al Qr Ar : ℝ) : ℝ × ℝ :=
  solve_W12 (calculate_W1_value Qr Ar p.G0 p.rho p.A0)
    (calculate_W2_value Ql Al p.G0 p.rho p.A0) p.G0 p.rho p.A0

/-- The value arrays produced by `get_fluxes_on_macro_edge` for one macro-edge
with `n` micro-vertices: the loop fills every interior micro-vertex
`1 ≤ i ≤ n-2` with the two-characteristic solve (`rightTrace k` and
`leftTrace k` are the right and left endpoint traces of micro-edge `k`
evaluated from the previous solution), afterwards index `0` is overwritten
with the cached left flux pair and index `n-1` with the cached right flux
pair; since position `n-1` is written last, the outer `if` mirrors that
overwrite order. -/
noncomputable def get_fluxes_on_macro_edge_values (n : ℕ) (p : VesselParams)
    (rightTrace leftTrace : ℕ → ℝ × ℝ) (fluxL fluxR : ℝ × ℝ) : ℕ → ℝ × ℝ :=
  fun i =>
    if i = n - 1 then fluxR
    else if i = 0 then fluxL
    else if i ≤ n - 2 then
      interiorUpwind p (rightTrace (i - 1)).1 (rightTrace (i - 1)).2
        (leftTrace i).1 (leftTrace i).2
    else (0, 0)

/-- The IEEE `!=` comparison of time stamps used by the accessor guard
`if (d_current_t != t)`, with `none` modelling `NaN`: `NaN` compares unequal
to every double, including `NaN` itself. -/
def timeNe : Option ℚ → Option ℚ → Bool
  | none, _ => true
  | _, none => true
  | some a, some b => decide (a ≠ b)

/-- The evaluator state visible to the accessors: the time stamp
`d_current_t` (`none` models `NaN`) and the four per-edge upwinded flux
buffers.  Values are rationals so that the guard stays executable. -/
structure UpwindState where
  current_t : Option ℚ
  fluxQl : ℕ → ℚ
  fluxQr : ℕ → ℚ
  fluxAl : ℕ → ℚ
  fluxAr : ℕ → ℚ

/-- The constructor state: `d_current_t(NAN)` and zero-initialised flux
vectors. -/
def UpwindState.initial : UpwindState :=
  { current_t := none, fluxQl := fun _ => 0, fluxQr := fun _ => 0,
    fluxAl := fun _ => 0, fluxAr := fun _ => 0 }

/-- `init(t, u_prev)`: stores the time stamp (`d_current_t = t;`) and rebuilds
the cached fluxes; the rebuilt flux values are abstracted as the parameters
`ql qr al ar` since only the stamp matters for the accessor guard. -/
def UpwindState.init (_st : UpwindState) (t : Option ℚ) (ql qr al ar : ℕ → ℚ) : UpwindState :=
  { current_t := t, fluxQl := ql, fluxQr := qr, fluxAl := al, fluxAr := ar }

/-- The accessor `get_fluxes_on_macro_edge(t, edge, ...)` viewed through its
guard: it throws `"FlowUpwindEvaluator was not initialized for the given time
step"` when `d_current_t != t`, and otherwise only reads the cached per-edge
values and returns the state unchanged (the C++ method is `const`; the state
is returned so that its preservation is expressible). -/
def get_fluxes_on_macro_edge_cached (st : UpwindState) (t : Option ℚ) (eid : ℕ) :
    Except String ((ℚ × ℚ) × (ℚ × ℚ) × UpwindState) :=
  if timeNe st.current_t t then
    Except.error "FlowUpwindEvaluator was not initialized for the given time step"
  else
    Except.ok ((st.fluxQl eid, st.fluxAl eid), (st.fluxQr eid, st.fluxAr eid), st)

/-- The accessor `get_fluxes_on_nfurcation(t, v, Q_up, A_up)`: after the same
guard it maps every neighbor edge (given with its orientation flag) to the
cached `_r` pair when the edge points to the vertex and to the cached `_l`
pair otherwise. -/
def get_fluxes_on_nfurcation_cached (st : UpwindState) (t : Option ℚ)
    (nbrs : List (ℕ × Bool)) : Except String (List (ℚ × ℚ) × UpwindState) :=
  if timeNe st.current_t t then
    Except.error "FlowUpwindEvaluator was not initialized for the given time step"
  else
    Except.ok
      (nbrs.map fun nb =>
        if nb.2 then (st.fluxQr nb.1, st.fluxAr nb.1) else (st.fluxQl nb.1, st.fluxAl nb.1), st)

/-- The state threaded through the phases of `init`: time stamp, the
boundary-value buffers `d_Q_macro_edge_boundary_value` and
`d_A_macro_edge_boundary_value` (indexed `2*edge` and `2*edge+1`), two
instrumentation stamps recording the time step for which each boundary buffer
was last synchronized by the ghost exchange, and the four flux buffers. -/
structure InitPipeline where
  current_t : Option ℚ
  boundQ : ℕ → ℚ
  boundA : ℕ → ℚ
  syncedQFor : Option ℚ
  syncedAFor : Option ℚ
  fluxQl : ℕ → ℚ
  fluxQr : ℕ → ℚ
  fluxAl : ℕ → ℚ
  fluxAr : ℕ → ℚ

/-- `evaluate_macro_edge_boundary_values(u_prev)`: every locally owned entry
of the boundary buffers is overwritten with the boundary trace of the previous
solution (`bq`/`ba` abstract the finite-element point evaluation); entries of
edges owned by other workers keep their stale values. -/
def evaluatePhase (owned : ℕ → Bool) (bq ba : ℕ → ℚ) (st : InitPipeline) : InitPipeline :=
  { st with
    boundQ := fun i => if owned i then bq i else st.boundQ i,
    boundA := fun i => if owned i then ba i else st.boundA i }

/-- `d_edge_boundary_communicator.update_ghost_layer(d_Q_macro_edge_boundary_value)`:
the blocking all-to-neighbor exchange delivers the remote values `gq` for all
entries not locally owned, after which the `Q` buffer is synchronized for the
current time step. -/
def exchangeQPhase (owned : ℕ → Bool) (gq : ℕ → ℚ) (st : InitPipeline) : InitPipeline :=
  { st with
    boundQ := fun i => if owned i then st.boundQ i else gq i,
    syncedQFor := st.current_t }

/-- The ghost exchange of the `A` boundary buffer. -/
def exchangeAPhase (owned : ℕ → Bool) (ga : ℕ → ℚ) (st : InitPipeline) : InitPipeline :=
  { st with
    boundA := fun i => if owned i then st.boundA i else ga i,
    syncedAFor := st.current_t }

/-- `calculate_nfurcation_fluxes(u_prev)`: reads only the boundary buffers and
writes only the flux buffers; the actual junction solves are abstracted as the
function `F` of the two boundary buffers. -/
def nfurcationPhase
    (F : (ℕ → ℚ) → (ℕ → ℚ) → (ℕ → ℚ) × (ℕ → ℚ) × (ℕ → ℚ) × (ℕ → ℚ))
    (st : InitPipeline) : InitPipeline :=
  { st with
    fluxQl := (F st.boundQ st.boundA).1,
    fluxQr := (F st.boundQ st.boundA).2.1,
    fluxAl := (F st.boundQ st.boundA).2.2.1,
    fluxAr := (F st.boundQ st.boundA).2.2.2 }

/-- `calculate_inout_fluxes(t, u_prev)`: likewise reads only the boundary
buffers and writes only the flux buffers (abstracted as `G`). -/
def inoutPhase
    (G : (ℕ → ℚ) → (ℕ → ℚ) → (ℕ → ℚ) × (ℕ → ℚ) × (ℕ → ℚ) × (ℕ → ℚ))
    (st : InitPipeline) : InitPipeline :=
  { st with
    fluxQl := (G st.boundQ st.boundA).1,
    fluxQr := (G st.boundQ st.boundA).2.1,
    fluxAl := (G st.boundQ st.boundA).2.2.1,
    fluxAr := (G st.boundQ st.boundA).2.2.2 }

/-- `FlowUpwindEvaluator::init(t, u_prev)` as the sequential composition the
source performs: store the time stamp, extract boundary values, exchange the
ghost layers of `Q` and then of `A`, then resolve bifurcations and leaf
boundaries. -/
def initPipeline (owned : ℕ → Bool) (bq ba gq ga : ℕ → ℚ)
    (F G : (ℕ → ℚ) → (ℕ → ℚ) → (ℕ → ℚ) × (ℕ → ℚ) × (ℕ → ℚ) × (ℕ → ℚ))
    (t : ℚ) (st : InitPipeline) : InitPipeline :=
  inoutPhase G
    (nfurcationPhase F
      (exchangeAPhase owned ga
        (exchangeQPhase owned gq
          (evaluatePhase owned bq ba { st with current_t := some t }))))

theorem newtonAux_char {α : Type*} [LinearOrderedField α] (f df : α → α) (ω tol : α) :
    ∀ (fuel iter : ℕ) (A : α) (w : Bool), iter + fuel = 250 →
      ∃ m, m ≤ fuel ∧
        newtonAux f df ω tol fuel iter A (some |f A|) w
          = ((newtonBody f df ω)^[m] A, iter + m, w || decide (m = fuel ∧ 1 ≤ m)) ∧
        (∀ k, k < m → tol < |f ((newtonBody f df ω)^[k] A)|) ∧
        (|f ((newtonBody f df ω)^[m] A)| ≤ tol ∨ m = fuel) := by
  intro fuel
  induction fuel with
  | zero =>
    intro iter A w _
    refine ⟨0, Nat.le_refl 0, ?_, ?_, Or.inr rfl⟩
    · simp [newtonAux]
    · intro k hk; exact absurd hk (Nat.not_lt_zero k)
  | succ n ih =>
    intro iter A w hinv
    by_cases h : tol < |f A|
    · have hg : errAbove tol (some |f A|) = true := by simp [errAbove, h]
      obtain ⟨m, hm, heq, hlt, hstop⟩ :=
        ih (iter + 1) (newtonBody f df ω A) (w || (iter + 1 == 250)) (by omega)
      refine ⟨m + 1, by omega, ?_, ?_, ?_⟩
      · have hbool : ((w || (iter + 1 == 250)) || decide (m = n ∧ 1 ≤ m))
            = (w || decide (m + 1 = n + 1 ∧ 1 ≤ m + 1)) := by
          rcases Nat.eq_zero_or_pos n with hn | hn
          · subst hn
            have hm0 : m = 0 := Nat.le_zero.mp hm
            have hiter : iter + 1 = 250 := by omega
            subst hm0
            rw [hiter]
            simp
          · have hiter : iter + 1 ≠ 250 := by omega
            have hb : (iter + 1 == 250) = false := by
              simp only [beq_eq_false_iff_ne, ne_eq]
              omega
            have hd : decide (m = n ∧ 1 ≤ m) = decide (m + 1 = n + 1 ∧ 1 ≤ m + 1) :=
              decide_eq_decide.mpr (by omega)
            rw [hb, Bool.or_false, hd]
        rw [newtonAux, if_pos hg, heq, hbool, ← Function.iterate_succ_apply]
        have harith : iter + 1 + m = iter + (m + 1) := by omega
        rw [harith]
      · intro k hk
        cases k with
        | zero => simpa using h
        | succ j =>
          have := hlt j (by omega)
          rwa [← Function.iterate_succ_apply] at this
      · rcases hstop with hs | hs
        · left; rwa [← Function.iterate_succ_apply] at hs
        · right; omega
    · have hg : errAbove tol (some |f A|) = false := by simp [errAbove, h]
      refine ⟨0, Nat.zero_le _, ?_, ?_, Or.inl (by simpa using not_lt.mp h)⟩
      · rw [newtonAux, if_neg (by simp [hg])]
        simp
      · intro k hk; exact absurd hk (Nat.not_lt_zero k)

/-- Characterisation of the Windkessel Newton loop: it performs some number
`n` of damped updates with `1 ≤ n ≤ 250`, returns the `n`-th iterate together
with the iteration count, stops early exactly when the residual magnitude of
the current iterate has dropped to the tolerance, and the non-convergence
warning fires exactly when all 250 iterations were performed. -/
theorem newtonLoop_char {α : Type*} [LinearOrderedField α] (f df : α → α) (ω A : α) :
    ∃ n, 1 ≤ n ∧ n ≤ 250 ∧
      newtonLoop f df ω A = ((newtonBody f df ω)^[n] A, n, decide (n = 250)) ∧
      (∀ k, 1 ≤ k → k < n → newtonTol < |f ((newtonBody f df ω)^[k] A)|) ∧
      (|f ((newtonBody f df ω)^[n] A)| ≤ (newtonTol : α) ∨ n = 250) := by
  obtain ⟨m, hm, heq, hlt, hstop⟩ :=
    newtonAux_char f df ω newtonTol 249 1 (newtonBody f df ω A) false (by omega)
  refine ⟨m + 1, by omega, by omega, ?_, ?_, ?_⟩
  · have h250 : (250 : ℕ) = 249 + 1 := rfl
    have hstep : newtonLoop f df ω A
        = newtonAux f df ω newtonTol 249 1 (newtonBody f df ω A)
            (some |f (newtonBody f df ω A)|) false := by
      rw [newtonLoop, h250, newtonAux, if_pos (by simp [errAbove])]
      rfl
    have hbool : (false || decide (m = 249 ∧ 1 ≤ m)) = decide (m + 1 = 250) := by
      by_cases hm249 : m = 249
      · subst hm249; simp
      · have : m + 1 ≠ 250 := by omega
        simp [hm249, this]
    rw [hstep, heq, ← Function.iterate_succ_apply, hbool]
    have : 1 + m = m + 1 := by omega
    rw [this]
  · intro k hk1 hk2
    cases k with
    | zero => omega
    | succ j =>
      have := hlt j (by omega)
      rwa [← Function.iterate_succ_apply] at this
  · rcases hstop with hs | hs
    · left; rwa [← Function.iterate_succ_apply] at hs
    · right; omega

theorem newtonBody_id (ω x : ℚ) :
    newtonBody (fun y : ℚ => y) (fun _ : ℚ => 1) ω x = (1 - ω) * x := by
  simp only [newtonBody]
  ring

theorem iterate_newtonBody_id (ω : ℚ) (k : ℕ) (x : ℚ) :
    (newtonBody (fun y : ℚ => y) (fun _ : ℚ => 1) ω)^[k] x = (1 - ω) ^ k * x := by
  induction k generalizing x with
  | zero => simp
  | succ j ih =>
    rw [Function.iterate_succ_apply, newtonBody_id, ih, pow_succ]
    ring

theorem newtonLoop_id_converged (ω A : ℚ) (n : ℕ) (h0 : 0 ≤ 1 - ω) (h1c : 1 - ω ≤ 1)
    (hA : 0 ≤ A) (h1 : 1 ≤ n) (h250 : n ≤ 250)
    (hgt : newtonTol < (1 - ω) ^ (n - 1) * A)
    (hle : (1 - ω) ^ n * A ≤ newtonTol) :
    (newtonLoop (fun y : ℚ => y) (fun _ : ℚ => 1) ω A).1 = (1 - ω) ^ n * A := by
  obtain ⟨m, hm1, hm250, heq, hlt, hstop⟩ :=
    newtonLoop_char (fun y : ℚ => y) (fun _ : ℚ => 1) ω A
  have hit : ∀ k : ℕ,
      (newtonBody (fun y : ℚ => y) (fun _ : ℚ => 1) ω)^[k] A = (1 - ω) ^ k * A :=
    fun k => iterate_newtonBody_id ω k A
  have hpos : ∀ k : ℕ, 0 ≤ (1 - ω) ^ k * A := fun k => mul_nonneg (pow_nonneg h0 k) hA
  have hmono : ∀ j k : ℕ, j ≤ k → (1 - ω) ^ k * A ≤ (1 - ω) ^ j * A :=
    fun j k h => mul_le_mul_of_nonneg_right (pow_le_pow_of_le_one h0 h1c h) hA
  have hmn : m = n := by
    by_contra hne
    rcases lt_or_gt_of_ne hne with hl | hg
    · rcases hstop with hs | hs
      · simp only [hit] at hs
        rw [abs_of_nonneg (hpos m)] at hs
        have hchain : (1 - ω) ^ (n - 1) * A ≤ (1 - ω) ^ m * A := hmono m (n - 1) (by omega)
        linarith
      · omega
    · have hx := hlt n h1 hg
      simp only [hit] at hx
      rw [abs_of_nonneg (hpos n)] at hx
      linarith
  rw [heq]
  simp only [hit, hmn]

theorem newtonLoop_id_all (ω A : ℚ) (h0 : 0 ≤ 1 - ω) (h1c : 1 - ω ≤ 1) (hA : 0 ≤ A)
    (hgt : newtonTol < (1 - ω) ^ 249 * A) :
    newtonLoop (fun y : ℚ => y) (fun _ : ℚ => 1) ω A = ((1 - ω) ^ 250 * A, 250, true) := by
  obtain ⟨m, hm1, hm250, heq, hlt, hstop⟩ :=
    newtonLoop_char (fun y : ℚ => y) (fun _ : ℚ => 1) ω A
  have hit : ∀ k : ℕ,
      (newtonBody (fun y : ℚ => y) (fun _ : ℚ => 1) ω)^[k] A = (1 - ω) ^ k * A :=
    fun k => iterate_newtonBody_id ω k A
  have hpos : ∀ k : ℕ, 0 ≤ (1 - ω) ^ k * A := fun k => mul_nonneg (pow_nonneg h0 k) hA
  have hmono : ∀ j k : ℕ, j ≤ k → (1 - ω) ^ k * A ≤ (1 - ω) ^ j * A :=
    fun j k h => mul_le_mul_of_nonneg_right (pow_le_pow_of_le_one h0 h1c h) hA
  have hmn : m = 250 := by
    by_contra hne
    have hl : m < 250 := lt_of_le_of_ne hm250 hne
    rcases hstop with hs | hs
    · simp only [hit] at hs
      rw [abs_of_nonneg (hpos m)] at hs
      have hchain : (1 - ω) ^ 249 * A ≤ (1 - ω) ^ m * A := hmono m 249 (by omega)
      linarith
    · omega
  rw [heq, hmn, hit]
  simp

/-- C1 counterexample: with the linear residual `f(y) = y`, unit derivative
and start value `1`, the Newton solve the code performs does not agree with
the damped Newton iteration with relaxation factor 0.5 claimed by the spec
(the code converges after 81 iterations to `(3/4)^81`, the claimed iteration
after 34 iterations to `(1/2)^34`). -/
theorem newton_relaxation_half_refuted :
    (newtonSolve (fun y : ℚ => y) (fun _ : ℚ => 1) 1).1
      ≠ (newtonSolveSpecHalf (fun y : ℚ => y) (fun _ : ℚ => 1) 1).1 := by
  have hcode : (newtonSolve (fun y : ℚ => y) (fun _ : ℚ => 1) 1).1
      = (1 - newtonOmega : ℚ) ^ 81 * 1 :=
    newtonLoop_id_converged newtonOmega 1 81 (by norm_num [newtonOmega])
      (by norm_num [newtonOmega]) (by norm_num) (by norm_num) (by norm_num)
      (by norm_num [newtonOmega, newtonTol]) (by norm_num [newtonOmega, newtonTol])
  have hspec : (newtonSolveSpecHalf (fun y : ℚ => y) (fun _ : ℚ => 1) 1).1
      = (1 - 1 / 2 : ℚ) ^ 34 * 1 :=
    newtonLoop_id_converged (1 / 2) 1 34 (by norm_num) (by norm_num) (by norm_num)
      (by norm_num) (by norm_num) (by norm_num [newtonTol]) (by norm_num [newtonTol])
  rw [hcode, hspec, show (1 - newtonOmega : ℚ) = 3 / 4 by norm_num [newtonOmega]]
  norm_num

/-- C1 (amended): for every Windkessel boundary configuration the outlet
cross-section is computed by a damped Newton iteration with relaxation factor
0.25 (the code computes `omega = 0.5 / 2.`), absolute residual tolerance
1e-10 and a hard cap of 250 iterations, starting from the measured boundary
area `A` and stopping as soon as the residual magnitude of the current
iterate is at most the tolerance. -/
theorem windkessel_newton_damping_quarter (p : VesselParams) (p_c W A : ℝ) :
    ∃ n, 1 ≤ n ∧ n ≤ 250 ∧
      windkesselAOut p p_c W A
        = (newtonBody (windkesselF p p_c W) (windkesselDf p p_c) (1 / 4))^[n] A ∧
      (∀ k, 1 ≤ k → k < n →
        (1 : ℝ) / 10 ^ 10
          < |windkesselF p p_c W
              ((newtonBody (windkesselF p p_c W) (windkesselDf p p_c) (1 / 4))^[k] A)|) ∧
      (|windkesselF p p_c W
          ((newtonBody (windkesselF p p_c W) (windkesselDf p p_c) (1 / 4))^[n] A)|
        ≤ (1 : ℝ) / 10 ^ 10 ∨ n = 250) := by
  have homega : (newtonOmega : ℝ) = 1 / 4 := by norm_num [newtonOmega]
  have htol : (newtonTol : ℝ) = 1 / 10 ^ 10 := by norm_num [newtonTol]
  obtain ⟨n, h1, h2, heq, hlt, hstop⟩ :=
    newtonLoop_char (windkesselF p p_c W) (windkesselDf p p_c) newtonOmega A
  rw [homega] at heq hlt hstop
  rw [htol] at hlt hstop
  refine ⟨n, h1, h2, ?_, hlt, hstop⟩
  rw [windkesselAOut, newtonSolve, homega, heq]

/-- C9 counterexample: an input on which the non-convergence warning is
printed although the final (250th) iterate meets the tolerance — the warning
fires even though the solve did reach the tolerance within the iteration
cap. -/
theorem newton_warning_despite_convergence :
    (newtonSolve (fun y : ℚ => y) (fun _ : ℚ => 1) (9 / 10 * (4 / 3) ^ 250 / 10 ^ 10)).2.2
        = true ∧
      |(newtonSolve (fun y : ℚ => y) (fun _ : ℚ => 1) (9 / 10 * (4 / 3) ^ 250 / 10 ^ 10)).1|
        ≤ (newtonTol : ℚ) := by
  have h := newtonLoop_id_all newtonOmega (9 / 10 * (4 / 3) ^ 250 / 10 ^ 10)
    (by norm_num [newtonOmega]) (by norm_num [newtonOmega]) (by positivity)
    (by norm_num [newtonOmega, newtonTol])
  constructor
  · show (newtonLoop (fun y : ℚ => y) (fun _ : ℚ => 1) newtonOmega
        (9 / 10 * (4 / 3) ^ 250 / 10 ^ 10)).2.2 = true
    rw [h]
  · show |(newtonLoop (fun y : ℚ => y) (fun _ : ℚ => 1) newtonOmega
        (9 / 10 * (4 / 3) ^ 250 / 10 ^ 10)).1| ≤ (newtonTol : ℚ)
    rw [h]
    rw [show ((1 - newtonOmega : ℚ) ^ 250 * (9 / 10 * (4 / 3) ^ 250 / 10 ^ 10), (250 : ℕ),
        true).1 = (1 - newtonOmega : ℚ) ^ 250 * (9 / 10 * (4 / 3) ^ 250 / 10 ^ 10) from rfl]
    rw [abs_of_nonneg (by norm_num [newtonOmega])]
    norm_num [newtonOmega, newtonTol]

/-- C9 (amended): the warning is written exactly when the Windkessel Newton
loop performs all 250 iterations, i.e. when the residuals of iterates 1..249
all exceed the tolerance (even if the 250th iterate meets it); in every case
the returned outlet cross-section is the last iterate, and the loop returns
normally rather than throwing. -/
theorem windkessel_newton_warning_characterization (p : VesselParams) (p_c W A : ℝ) :
    ∃ n, 1 ≤ n ∧ n ≤ 250 ∧
      newtonSolve (windkesselF p p_c W) (windkesselDf p p_c) A
        = ((newtonBody (windkesselF p p_c W) (windkesselDf p p_c) (1 / 4))^[n] A, n,
            decide (n = 250)) ∧
      windkesselAOut p p_c W A
        = (newtonBody (windkesselF p p_c W) (windkesselDf p p_c) (1 / 4))^[n] A ∧
      ((newtonSolve (windkesselF p p_c W) (windkesselDf p p_c) A).2.2 = true ↔
        ∀ k, 1 ≤ k → k ≤ 249 →
          (1 : ℝ) / 10 ^ 10
            < |windkesselF p p_c W
                ((newtonBody (windkesselF p p_c W) (windkesselDf p p_c) (1 / 4))^[k] A)|) := by
  have homega : (newtonOmega : ℝ) = 1 / 4 := by norm_num [newtonOmega]
  have htol : (newtonTol : ℝ) = 1 / 10 ^ 10 := by norm_num [newtonTol]
  obtain ⟨n, h1, h2, heq, hlt, hstop⟩ :=
    newtonLoop_char (windkesselF p p_c W) (windkesselDf p p_c) newtonOmega A
  rw [homega] at heq hlt hstop
  rw [htol] at hlt hstop
  have heqS : newtonSolve (windkesselF p p_c W) (windkesselDf p p_c) A
      = ((newtonBody (windkesselF p p_c W) (windkesselDf p p_c) (1 / 4))^[n] A, n,
          decide (n = 250)) := by
    rw [newtonSolve, homega, heq]
  refine ⟨n, h1, h2, heqS, ?_, ?_, ?_⟩
  · rw [windkesselAOut, newtonSolve, homega, heq]
  · intro hw k hk1 hk2
    have hn : n = 250 := by
      rw [heqS] at hw
      simpa using hw
    exact hlt k hk1 (by omega)
  · intro hall
    have hn : n = 250 := by
      by_contra hne
      have hl : n < 250 := lt_of_le_of_ne h2 hne
      rcases hstop with hs | hs
      · have := hall n h1 (by omega)
        linarith
      · omega
    rw [heqS, hn]
    simp

/-- C2: the Newton residual of the Windkessel branch is exactly
`W − (p(A_out) − p_c)/(A_out·R1) − 4·c0·(A_out/A0)^(1/4)` with
`p(A) = G0(√(A/A0) − 1)`, `c0 = √(G0/(2ρ))` and `R1 = ρ·c0/A0`; `W` is the
characteristic invariant of the measured boundary values (`W2` if the edge
points to the vertex, `W1` otherwise); `p_c` is the vertex's
capillary-pressure dof read from the previous solution; and the cached flux
pair is `(Q_out, A_out)` with `Q_out = sign·(p(A_out) − p_c)/R1`, the sign
being `+1` if the edge points to the vertex and `−1` otherwise. -/
theorem windkessel_residual_and_fluxes (p : VesselParams) (pointing : Bool)
    (Q A : ℝ) (u_prev : ℕ → ℝ) (vdof eid : ℕ) (c : EdgeFluxCache) :
    (∀ A_out, windkesselF p (u_prev vdof) (windkesselW p pointing Q A) A_out
        = windkesselW p pointing Q A
          - (calculate_static_p A_out p.G0 p.A0 - u_prev vdof)
              / (A_out * (p.rho * Real.sqrt (p.G0 / (2 * p.rho)) / p.A0))
          - 4 * Real.sqrt (p.G0 / (2 * p.rho)) * (A_out / p.A0) ^ ((1 : ℝ) / 4)) ∧
    windkesselW p pointing Q A
      = (if pointing then calculate_W2_value Q A p.G0 p.rho p.A0
         else calculate_W1_value Q A p.G0 p.rho p.A0) ∧
    windkesselBranch p pointing Q A (u_prev vdof)
      = ((if pointing then (1 : ℝ) else -1)
            * (calculate_static_p
                (windkesselAOut p (u_prev vdof) (windkesselW p pointing Q A) A) p.G0 p.A0
               - u_prev vdof) / windkesselR1 p,
         windkesselAOut p (u_prev vdof) (windkesselW p pointing Q A) A) ∧
    windkesselLeafUpdate p pointing Q A u_prev vdof eid c
      = writeLeafFlux pointing eid (windkesselBranch p pointing Q A (u_prev vdof)) c := by
  have hc0 : windkesselC0 p = Real.sqrt (p.G0 / (2 * p.rho)) :=
    (Real.sqrt_eq_rpow _).symm
  refine ⟨?_, rfl, rfl, rfl⟩
  intro A_out
  rw [windkesselF, windkesselR1, hc0, calculate_static_p]

/-- C4: the free-outflow branch combines the measured outgoing invariant
(`W2` of the measured boundary values if the edge points to the vertex, `W1`
otherwise) with the incoming invariant of the reference state `Q = 0`,
`A = A0` through the closed-form two-invariant solve; in particular at rest
(measured `Q = 0`, `A = A0`) the cached pair is `(0, A0)`. -/
theorem free_outflow_reference_state (p : VesselParams) (pointing : Bool)
    (hG : 0 < p.G0) (hrho : 0 < p.rho) (hA0 : 0 < p.A0) :
    (∀ Q A, freeOutflowBranch p pointing Q A
        = solve_W12
            (if pointing then calculate_W1_value 0 p.A0 p.G0 p.rho p.A0
             else calculate_W1_value Q A p.G0 p.rho p.A0)
            (if pointing then calculate_W2_value Q A p.G0 p.rho p.A0
             else calculate_W2_value 0 p.A0 p.G0 p.rho p.A0)
            p.G0 p.rho p.A0) ∧
    freeOutflowBranch p pointing 0 p.A0 = (0, p.A0) := by
  refine ⟨fun Q A => rfl, ?_⟩
  have hc0 : 0 < calculate_c0 p.G0 p.rho := by
    rw [calculate_c0]
    exact Real.sqrt_pos.mpr (by positivity)
  have hone : (p.A0 / p.A0 : ℝ) = 1 := div_self hA0.ne'
  have hW1 : calculate_W1_value 0 p.A0 p.G0 p.rho p.A0 = -(4 * calculate_c0 p.G0 p.rho) := by
    rw [calculate_W1_value, hone, Real.one_rpow]
    ring
  have hW2 : calculate_W2_value 0 p.A0 p.G0 p.rho p.A0 = 4 * calculate_c0 p.G0 p.rho := by
    rw [calculate_W2_value, hone, Real.one_rpow]
    ring
  have hbranch : freeOutflowBranch p pointing 0 p.A0
      = solve_W12 (-(4 * calculate_c0 p.G0 p.rho)) (4 * calculate_c0 p.G0 p.rho)
          p.G0 p.rho p.A0 := by
    rw [freeOutflowBranch]
    cases pointing <;> simp [hW1, hW2]
  rw [hbranch, solve_W12]
  have hdiv : (4 * calculate_c0 p.G0 p.rho - -(4 * calculate_c0 p.G0 p.rho))
      / (8 * calculate_c0 p.G0 p.rho) = 1 := by
    field_simp
    ring
  rw [hdiv]
  norm_num

/-- C4 witness: a concrete vessel with `G0 = 2`, `A0 = 1`, `rho = 1` at rest
returns the flux pair `(0, A0)`. -/
theorem free_outflow_reference_state_witness :
    (0 : ℝ) < 2 ∧ (0 : ℝ) < 1 ∧
      freeOutflowBranch ⟨2, 1, 1⟩ true 0 1 = (0, 1) := by
  have h := free_outflow_reference_state ⟨2, 1, 1⟩ true (by norm_num) (by norm_num)
    (by norm_num)
  exact ⟨by norm_num, by norm_num, h.2⟩

/-- C5: for a prescribed-inflow leaf the cached flow is `s·w(t)` with
`s = −1` exactly when the edge points to the vertex and `s = +1` otherwise,
and the cached companion area is the `assemble_in_flow` result computed from
the measured boundary values together with that signed target flow; the pair
lands in the `_r` slots of the incident edge when the edge points to the
vertex and in the `_l` slots otherwise, leaving the opposite slots
untouched. -/
theorem inflow_signed_target_flux (assemble : ℝ → ℝ → Bool → ℝ → ℝ → ℝ → ℝ → ℝ)
    (p : VesselParams) (pointing : Bool) (w : ℝ → ℝ) (t Q A : ℝ) (eid : ℕ)
    (c : EdgeFluxCache) :
    (inflowBranch assemble p pointing (w t) Q A).1
        = (if pointing then (-1 : ℝ) else 1) * w t ∧
    (inflowBranch assemble p pointing (w t) Q A).2
        = assemble Q A pointing ((if pointing then (-1 : ℝ) else 1) * w t)
            p.G0 p.rho p.A0 ∧
    inflowLeafUpdate assemble p pointing w t Q A eid c
        = writeLeafFlux pointing eid (inflowBranch assemble p pointing (w t) Q A) c ∧
    (inflowLeafUpdate assemble p pointing w t Q A eid c).Qr eid
        = (if pointing then (-1 : ℝ) * w t else c.Qr eid) ∧
    (inflowLeafUpdate assemble p pointing w t Q A eid c).Ql eid
        = (if pointing then c.Ql eid else 1 * w t) ∧
    (inflowLeafUpdate assemble p pointing w t Q A eid c).Ar eid
        = (if pointing then
            assemble Q A pointing ((-1 : ℝ) * w t) p.G0 p.rho p.A0
           else c.Ar eid) ∧
    (inflowLeafUpdate assemble p pointing w t Q A eid c).Al eid
        = (if pointing then c.Al eid
           else assemble Q A pointing ((1 : ℝ) * w t) p.G0 p.rho p.A0) := by
  refine ⟨rfl, rfl, rfl, ?_, ?_, ?_, ?_⟩ <;>
    cases pointing <;>
      simp [inflowLeafUpdate, writeLeafFlux, inflowBranch]

/-- C6: any solution of the three-vessel junction system conserves mass — the
upwinded flows, signed so as to be oriented into the junction according to
edge orientation, sum to zero exactly, hence in particular to within the
relative floating-point tolerance 1e-8. -/
theorem nfurcation_mass_conservation (p1 p2 p3 : VesselParams) (in1 in2 in3 : Bool)
    (Qe1 Ae1 Qe2 Ae2 Qe3 Ae3 Qup1 Aup1 Qup2 Aup2 Qup3 Aup3 : ℝ)
    (h : NfurcationSolution p1 p2 p3 in1 in2 in3 Qe1 Ae1 Qe2 Ae2 Qe3 Ae3
      Qup1 Aup1 Qup2 Aup2 Qup3 Aup3) :
    junctionInflow in1 Qup1 + junctionInflow in2 Qup2 + junctionInflow in3 Qup3 = 0 ∧
    |junctionInflow in1 Qup1 + junctionInflow in2 Qup2 + junctionInflow in3 Qup3|
      ≤ 1 / 10 ^ 8 * (|Qup1| + |Qup2| + |Qup3|) := by
  have hsum := h.2.2.2.2.2
  refine ⟨hsum, ?_⟩
  rw [hsum, abs_zero]
  positivity

/-- C6 witness: a junction of three identical vessels at rest is a solution
of the junction system, and its signed flows sum to zero. -/
theorem nfurcation_mass_conservation_witness :
    NfurcationSolution ⟨2, 1, 1⟩ ⟨2, 1, 1⟩ ⟨2, 1, 1⟩ true true false
        0 1 0 1 0 1 0 1 0 1 0 1 ∧
      junctionInflow true 0 + junctionInflow true 0 + junctionInflow false 0 = 0 := by
  have hsol : NfurcationSolution ⟨2, 1, 1⟩ ⟨2, 1, 1⟩ ⟨2, 1, 1⟩ true true false
      0 1 0 1 0 1 0 1 0 1 0 1 := by
    refine ⟨?_, ?_, ?_, rfl, rfl, ?_⟩ <;> simp [charCompat, junctionInflow]
  exact ⟨hsol,
    (nfurcation_mass_conservation ⟨2, 1, 1⟩ ⟨2, 1, 1⟩ ⟨2, 1, 1⟩ true true false
      0 1 0 1 0 1 0 1 0 1 0 1 hsol).1⟩

/-- C8: for every internal micro-vertex the returned pair is the closed-form
two-characteristic solve combining `W2` of the left neighbouring micro-edge's
right trace with `W1` of the right neighbouring micro-edge's left trace,
while the first and last entries are copied verbatim from the per-edge left
and right cached flux pairs built by `init`. -/
theorem interior_upwinding_closed_form (n : ℕ) (p : VesselParams)
    (rightTrace leftTrace : ℕ → ℝ × ℝ) (fluxL fluxR : ℝ × ℝ) (i : ℕ)
    (hn : 2 ≤ n) (hi1 : 1 ≤ i) (hi2 : i ≤ n - 2) :
    get_fluxes_on_macro_edge_values n p rightTrace leftTrace fluxL fluxR i
      = solve_W12
          (calculate_W1_value (leftTrace i).1 (leftTrace i).2 p.G0 p.rho p.A0)
          (calculate_W2_value (rightTrace (i - 1)).1 (rightTrace (i - 1)).2
            p.G0 p.rho p.A0)
          p.G0 p.rho p.A0 ∧
    get_fluxes_on_macro_edge_values n p rightTrace leftTrace fluxL fluxR 0 = fluxL ∧
    get_fluxes_on_macro_edge_values n p rightTrace leftTrace fluxL fluxR (n - 1)
      = fluxR := by
  have h1 : ¬(i = n - 1) := by omega
  have h2 : ¬(i = 0) := by omega
  have h3 : ¬((0 : ℕ) = n - 1) := by omega
  refine ⟨?_, ?_, ?_⟩
  · simp only [get_fluxes_on_macro_edge_values, if_neg h1, if_neg h2, if_pos hi2]
    rfl
  · simp [get_fluxes_on_macro_edge_values, h3]
  · simp [get_fluxes_on_macro_edge_values]

/-- C8 witness: a macro-edge with three micro-vertices and concrete traces. -/
theorem interior_upwinding_closed_form_witness :
    (2 : ℕ) ≤ 3 ∧ (1 : ℕ) ≤ 1 ∧ (1 : ℕ) ≤ 3 - 2 ∧
      get_fluxes_on_macro_edge_values 3 ⟨2, 1, 1⟩ (fun _ => (1, 2)) (fun _ => (3, 4))
          (5, 6) (7, 8) 1
        = solve_W12 (calculate_W1_value 3 4 2 1 1) (calculate_W2_value 1 2 2 1 1) 2 1 1 ∧
      get_fluxes_on_macro_edge_values 3 ⟨2, 1, 1⟩ (fun _ => (1, 2)) (fun _ => (3, 4))
          (5, 6) (7, 8) 0 = (5, 6) ∧
      get_fluxes_on_macro_edge_values 3 ⟨2, 1, 1⟩ (fun _ => (1, 2)) (fun _ => (3, 4))
          (5, 6) (7, 8) (3 - 1) = (7, 8) := by
  have h := interior_upwinding_closed_form 3 ⟨2, 1, 1⟩ (fun _ => (1, 2))
    (fun _ => (3, 4)) (5, 6) (7, 8) 1 (by norm_num) (by norm_num) (by norm_num)
  exact ⟨by norm_num, by norm_num, by norm_num, h.1, h.2.1, h.2.2⟩

/-- C3: after `init` with a (non-NaN) time `q`, both accessors raise the
`"not initialized"` error exactly when queried at a time other than `q`; when
they do not raise, they return exactly the cached values and leave the
evaluator state unchanged. -/
theorem accessor_stale_cache_guard (st : UpwindState) (ql qr al ar : ℕ → ℚ) (q : ℚ)
    (t' : Option ℚ) (eid : ℕ) (nbrs : List (ℕ × Bool)) :
    (get_fluxes_on_macro_edge_cached (st.init (some q) ql qr al ar) t' eid
        = Except.error "FlowUpwindEvaluator was not initialized for the given time step"
      ↔ t' ≠ some q) ∧
    (get_fluxes_on_nfurcation_cached (st.init (some q) ql qr al ar) t' nbrs
        = Except.error "FlowUpwindEvaluator was not initialized for the given time step"
      ↔ t' ≠ some q) ∧
    (t' = some q →
      get_fluxes_on_macro_edge_cached (st.init (some q) ql qr al ar) t' eid
        = Except.ok ((ql eid, al eid), (qr eid, ar eid), st.init (some q) ql qr al ar)) ∧
    (t' = some q →
      get_fluxes_on_nfurcation_cached (st.init (some q) ql qr al ar) t' nbrs
        = Except.ok
            (nbrs.map fun nb =>
              if nb.2 then (qr nb.1, ar nb.1) else (ql nb.1, al nb.1),
             st.init (some q) ql qr al ar)) := by
  cases t' with
  | none =>
    refine ⟨⟨fun _ => by simp, fun _ => rfl⟩, ⟨fun _ => by simp, fun _ => rfl⟩, ?_, ?_⟩ <;>
      intro hcontra <;> simp at hcontra
  | some q' =>
    by_cases h : q' = q
    · subst h
      have hne : timeNe (some q') (some q') = false := by simp [timeNe]
      refine ⟨?_, ?_, ?_, ?_⟩
      · rw [get_fluxes_on_macro_edge_cached, UpwindState.init, hne]
        simp
      · rw [get_fluxes_on_nfurcation_cached, UpwindState.init, hne]
        simp
      · intro _
        rw [get_fluxes_on_macro_edge_cached, UpwindState.init, hne]
        rfl
      · intro _
        rw [get_fluxes_on_nfurcation_cached, UpwindState.init, hne]
        rfl
    · have hne : timeNe (some q) (some q') = true := by
        simp only [timeNe, decide_eq_true_eq]
        exact fun hqq => h hqq.symm
      refine ⟨?_, ?_, ?_, ?_⟩
      · rw [get_fluxes_on_macro_edge_cached, UpwindState.init, hne]
        simp [h]
      · rw [get_fluxes_on_nfurcation_cached, UpwindState.init, hne]
        simp [h]
      · intro hcontra
        exact absurd (Option.some.inj hcontra) h
      · intro hcontra
        exact absurd (Option.some.inj hcontra) h

/-- C10: with the constructor state (time stamp `NaN`) both accessors fail
for every queried time, and after an `init` called with `NaN` they also fail
for every subsequent query, including queries at `NaN`, because `NaN`
compares unequal to every double. -/
theorem accessor_nan_never_succeeds (st : UpwindState) (ql qr al ar : ℕ → ℚ)
    (t' : Option ℚ) (eid : ℕ) (nbrs : List (ℕ × Bool)) :
    get_fluxes_on_macro_edge_cached UpwindState.initial t' eid
        = Except.error "FlowUpwindEvaluator was not initialized for the given time step" ∧
    get_fluxes_on_nfurcation_cached UpwindState.initial t' nbrs
        = Except.error "FlowUpwindEvaluator was not initialized for the given time step" ∧
    get_fluxes_on_macro_edge_cached (st.init none ql qr al ar) t' eid
        = Except.error "FlowUpwindEvaluator was not initialized for the given time step" ∧
    get_fluxes_on_nfurcation_cached (st.init none ql qr al ar) t' nbrs
        = Except.error "FlowUpwindEvaluator was not initialized for the given time step" := by
  cases t' <;> exact ⟨rfl, rfl, rfl, rfl⟩

/-- C7: within `init`, boundary extraction happens first, then the ghost
exchanges of `Q` and of `A` complete — stamping both boundary buffers as
synchronized for the current time step — and only afterwards do the
bifurcation and leaf-boundary resolutions run; those resolutions compute the
fluxes exclusively from the synchronized boundary buffers and modify neither
the boundary buffers nor the synchronization stamps. -/
theorem init_sync_before_resolution (owned : ℕ → Bool) (bq ba gq ga : ℕ → ℚ)
    (F G : (ℕ → ℚ) → (ℕ → ℚ) → (ℕ → ℚ) × (ℕ → ℚ) × (ℕ → ℚ) × (ℕ → ℚ))
    (t : ℚ) (st : InitPipeline) :
    initPipeline owned bq ba gq ga F G t st
        = inoutPhase G (nfurcationPhase F (exchangeAPhase owned ga (exchangeQPhase owned gq
            (evaluatePhase owned bq ba { st with current_t := some t })))) ∧
    (exchangeAPhase owned ga (exchangeQPhase owned gq
        (evaluatePhase owned bq ba { st with current_t := some t }))).syncedQFor
      = some t ∧
    (exchangeAPhase owned ga (exchangeQPhase owned gq
        (evaluatePhase owned bq ba { st with current_t := some t }))).syncedAFor
      = some t ∧
    (∀ s, (nfurcationPhase F s).boundQ = s.boundQ ∧
      (nfurcationPhase F s).boundA = s.boundA ∧
      (nfurcationPhase F s).syncedQFor = s.syncedQFor ∧
      (nfurcationPhase F s).syncedAFor = s.syncedAFor ∧
      (nfurcationPhase F s).fluxQl = (F s.boundQ s.boundA).1 ∧
      (nfurcationPhase F s).fluxQr = (F s.boundQ s.boundA).2.1 ∧
      (nfurcationPhase F s).fluxAl = (F s.boundQ s.boundA).2.2.1 ∧
      (nfurcationPhase F s).fluxAr = (F s.boundQ s.boundA).2.2.2) ∧
    (∀ s, (inoutPhase G s).boundQ = s.boundQ ∧
      (inoutPhase G s).boundA = s.boundA ∧
      (inoutPhase G s).syncedQFor = s.syncedQFor ∧
      (inoutPhase G s).syncedAFor = s.syncedAFor ∧
      (inoutPhase G s).fluxQl = (G s.boundQ s.boundA).1 ∧
      (inoutPhase G s).fluxQr = (G s.boundQ s.boundA).2.1 ∧
      (inoutPhase G s).fluxAl = (G s.boundQ s.boundA).2.2.1 ∧
      (inoutPhase G s).fluxAr = (G s.boundQ s.boundA).2.2.2) := by
  exact ⟨rfl, rfl, rfl, fun s => ⟨rfl, rfl, rfl, rfl, rfl, rfl, rfl, rfl⟩,
    fun s => ⟨rfl, rfl, rfl, rfl, rfl, rfl, rfl, rfl⟩⟩

end Macrocirculation
